import Mathlib

/-!
Verification of the Credexa job-recommendation scoring engine
(`src/ML/career_assistant/src/{user_profile,skill_matcher,recommendation_engine}.py`).

This file shallowly embeds the Python code into Lean 4:
pure Python functions become Lean functions, Python `float` arithmetic is
modelled exactly over `ℚ` (all constants in the source are decimal literals,
and no claim depends on binary rounding), optional fields become `Option`,
and the one statement that can raise at runtime (the integer division in
`calculate_salary_score`, which raises `ZeroDivisionError` when the user's
salary range is a single point) is modelled with `Except`.  Strings are the
ASCII fragment (`str.lower`, `str.strip`, `\w`, `\s` restricted to ASCII,
which covers every literal appearing in the source tables).
-/

/-! ## Python string primitives -/

/-- Python `str.lower()` (ASCII model). -/
def pyLower (s : String) : String := ⟨s.toList.map Char.toLower⟩

/-- Python `str.strip()`: remove leading and trailing whitespace. -/
def pyStrip (s : String) : String :=
  ⟨((s.toList.dropWhile Char.isWhitespace).reverse.dropWhile Char.isWhitespace).reverse⟩

/-- Helper for Python substring containment: `p` is a prefix of `l`. -/
def listLeadsB : List Char → List Char → Bool
  | [], _ => true
  | _ :: _, [] => false
  | a :: as', b :: bs => a == b && listLeadsB as' bs

/-- Python `needle in hay` on lists of characters: contiguous substring test. -/
def listSubB (p : List Char) : List Char → Bool
  | [] => listLeadsB p []
  | l@(_ :: bs) => listLeadsB p l || listSubB p bs

/-- Python `needle in hay` for strings. -/
def pySubstr (needle hay : String) : Bool := listSubB needle.toList hay.toList

/-- Split a character list at every character satisfying `p`, keeping empty
pieces (the behaviour of Python `str.split(sep)` for a one-character `sep`). -/
def splitPredAux (p : Char → Bool) : List Char → List Char → List String
  | [], acc => [⟨acc.reverse⟩]
  | c :: cs, acc =>
    if p c then ⟨acc.reverse⟩ :: splitPredAux p cs []
    else splitPredAux p cs (c :: acc)

/-- Python `str.split(",")`: split on every separator, keeping empty pieces. -/
def splitOnChar (sep : Char) (s : String) : List String :=
  splitPredAux (fun c => c == sep) s.toList []

/-- Python `str.split()` with no argument: split on whitespace runs, no empties. -/
def pySplitWs (s : String) : List String :=
  (splitPredAux Char.isWhitespace s.toList []).filter (fun w => w ≠ "")

/-- Python `sep.join(items)`. -/
def joinSep (sep : String) : List String → String
  | [] => ""
  | [x] => x
  | x :: xs => x ++ sep ++ joinSep sep xs

/-- Boolean success test for `Except` (Python: the call returned rather than
raised). -/
def exceptOk : Except ε α → Bool
  | Except.ok _ => true
  | Except.error _ => false

/-- Truthiness of an optional Python string (`None` and `""` are falsy). -/
def optStrFalsy : Option String → Bool
  | none => true
  | some s => s == ""

/-! ## Data model (`user_profile.py`, `job_scraper.py`) -/

/-- `UserProfile` from `user_profile.py` (post-`__post_init__` state).
`salary_range` is the Python dict with keys `min`, `max`, modelled as a pair. -/
structure UserProfile where
  skills : List String
  experience_level : String
  preferred_roles : List String
  location : Option String
  salary_range : Option (Int × Int)
  work_type : Option String
deriving Repr, DecidableEq

/-- `JobPosting` from `job_scraper.py` (the fields the engine reads). -/
structure JobPosting where
  title : String
  company : String
  location : String
  description : String
  skills_required : List String
  experience_level : Option String := none
  salary_range : Option String := none
  job_type : Option String := none
  work_type : Option String := none
deriving Repr, DecidableEq

/-- Valid experience levels checked by `UserProfile.__post_init__`. -/
def valid_experience_levels : List String := ["entry", "mid", "senior", "executive"]

/-- `UserProfile.__post_init__`: strips/lowers skills and roles (dropping blank
entries), then raises `ValueError` unless the lowercased experience level is
one of `valid_experience_levels`; on success stores the lowercased level.
No other validation is performed (in particular, `salary_range` is not checked). -/
def mkUserProfile (skills : List String) (experience_level : String)
    (preferred_roles : List String) (location : Option String)
    (salary_range : Option (Int × Int)) (work_type : Option String) :
    Except String UserProfile :=
  let skills' := (skills.filter (fun s => pyStrip s ≠ "")).map (fun s => pyLower (pyStrip s))
  let roles' := (preferred_roles.filter (fun s => pyStrip s ≠ "")).map (fun s => pyLower (pyStrip s))
  if valid_experience_levels.contains (pyLower experience_level) then
    Except.ok ⟨skills', pyLower experience_level, roles', location, salary_range, work_type⟩
  else
    Except.error "ValueError: Experience level must be one of: entry, mid, senior, executive"

/-! ## Skill matcher (`skill_matcher.py`) -/

/-- ASCII model of the regex class `\w`. -/
def isWordChar (c : Char) : Bool := c.isAlphanum || c == '_'

/-- Characters kept by `re.sub(r'[^\w\s+#.]', '', ...)` in `normalize_skill`. -/
def keepChar (c : Char) : Bool :=
  isWordChar c || c.isWhitespace || c == '+' || c == '#' || c == '.'

/-- Is the optional neighbouring character a word boundary for `\b`
(no character, or a non-word character)? -/
def boundaryOpt : Option Char → Bool
  | none => true
  | some c => !(isWordChar c)

/-- Model of `re.sub(r'\b<p₁p₂>\b', repl, ·)` for a two-character pattern
(the source only substitutes the two-character tokens `js`, `ml`, `ai`).
`prev` is the character preceding the current scan position in the original
string (`none` at the start); scanning resumes after each replacement. -/
def subWord2 (p₁ p₂ : Char) (repl : List Char) : Option Char → List Char → List Char
  | _, [] => []
  | _, [c] => [c]
  | prev, c₁ :: c₂ :: rest =>
    if c₁ == p₁ && c₂ == p₂ && boundaryOpt prev && boundaryOpt rest.head? then
      repl ++ subWord2 p₁ p₂ repl (some c₂) rest
    else
      c₁ :: subWord2 p₁ p₂ repl (some c₁) (c₂ :: rest)

/-- `SkillMatcher.normalize_skill`: lowercase, strip, drop characters outside
`[\w\s+#.]`, then expand the standalone abbreviations `js`, `ml`, `ai`. -/
def normalize_skill (skill : String) : String :=
  let base := pyStrip (pyLower skill)
  let filtered := base.toList.filter keepChar
  let s1 := subWord2 'j' 's' "javascript".toList none filtered
  let s2 := subWord2 'm' 'l' "machine learning".toList none s1
  let s3 := subWord2 'a' 'i' "artificial intelligence".toList none s2
  ⟨s3⟩

/-- The synonym table literal of `SkillMatcher._load_skill_synonyms`
(before bidirectional expansion), in dict insertion order. -/
def synonymsBase : List (String × List String) := [
  ("javascript", ["js", "ecmascript", "node.js", "nodejs"]),
  ("python", ["py", "python3", "python2"]),
  ("c++", ["cpp", "c plus plus", "cplusplus"]),
  ("c#", ["csharp", "c sharp", ".net", "dotnet"]),
  ("postgresql", ["postgres", "psql"]),
  ("mysql", ["my sql"]),
  ("mongodb", ["mongo", "nosql"]),
  ("sql", ["structured query language", "database"]),
  ("react", ["reactjs", "react.js"]),
  ("angular", ["angularjs", "angular.js"]),
  ("vue", ["vuejs", "vue.js"]),
  ("node.js", ["nodejs", "node", "javascript"]),
  ("aws", ["amazon web services", "amazon aws"]),
  ("gcp", ["google cloud platform", "google cloud"]),
  ("azure", ["microsoft azure"]),
  ("machine learning", ["ml", "artificial intelligence", "ai"]),
  ("data science", ["data analysis", "analytics"]),
  ("pandas", ["python pandas"]),
  ("scikit-learn", ["sklearn", "scikit learn"]),
  ("tensorflow", ["tf"]),
  ("pytorch", ["torch"]),
  ("git", ["version control", "github", "gitlab"]),
  ("docker", ["containerization", "containers"]),
  ("kubernetes", ["k8s", "container orchestration"]),
  ("agile", ["scrum", "kanban"]),
  ("devops", ["ci/cd", "continuous integration"])]

/-- Dictionary lookup on an association list (Python `dict.get`). -/
def dictGet (d : List (String × List String)) (k : String) : Option (List String) :=
  (d.find? (fun kv => kv.1 == k)).map (fun kv => kv.2)

/-- Dictionary assignment on an association list (Python `d[k] = v`):
overwrites in place if present, otherwise appends (insertion order). -/
def dictSet (d : List (String × List String)) (k : String) (v : List String) :
    List (String × List String) :=
  if d.any (fun kv => kv.1 == k) then
    d.map (fun kv => if kv.1 == k then (k, v) else kv)
  else
    d ++ [(k, v)]

/-- The bidirectional expansion loop in `_load_skill_synonyms`: the main
skill's entry is assigned (overwriting any earlier one), and each synonym's
entry accumulates the main skill plus the other synonyms.  Python stores
sets; only membership and never order is consulted, so lists with possible
duplicates are an equivalent model. -/
def skill_synonyms : List (String × List String) :=
  synonymsBase.foldl (fun d ms =>
    let d := dictSet d ms.1 ms.2
    ms.2.foldl (fun d syn =>
      let cur := (dictGet d syn).getD []
      dictSet d syn (cur ++ [ms.1] ++ ms.2.filter (fun s => s ≠ syn))) d) []

/-- `SkillMatcher.find_synonym_matches`: synonyms of the normalized skill
(empty when absent from the table). -/
def find_synonym_matches (skill : String) : List String :=
  (dictGet skill_synonyms (normalize_skill skill)).getD []

/-! ## `difflib.SequenceMatcher.ratio` (Ratcliff/Obershelp)

The source computes fuzzy similarity with
`difflib.SequenceMatcher(None, a, b).ratio()`.  The model below follows the
library algorithm for inputs under the autojunk threshold (second string
shorter than 200 characters, which covers every skill string in the repo's
tables): the longest matching block (earliest in `a`, then earliest in `b`
among maximal ones) is found, the procedure recurses on the pieces to its
left and right, and the ratio is `2·M / (|a| + |b|)` with `M` the total
matched size (`1` when both strings are empty). -/

/-- Length of the longest common prefix of two character lists. -/
def commonPrefixLen : List Char → List Char → Nat
  | a :: as', b :: bs => if a == b then commonPrefixLen as' bs + 1 else 0
  | _, _ => 0

/-- `SequenceMatcher.find_longest_match` over whole lists: the triple
`(i, j, size)` of the maximal common contiguous block, preferring the
smallest `i` and then the smallest `j` (difflib's documented tie-break). -/
def findLongestMatch (a b : List Char) : Nat × Nat × Nat :=
  (List.range a.length).foldl (fun best i =>
    (List.range b.length).foldl (fun best j =>
      let s := commonPrefixLen (a.drop i) (b.drop j)
      if s > best.2.2 then (i, j, s) else best) best) (0, 0, 0)

/-- Total size of all matching blocks (`get_matching_blocks` recursion).
`fuel` only bounds the recursion depth; every call strictly shrinks `a`,
so `a.length + b.length` fuel is always sufficient. -/
def matchingTotal : Nat → List Char → List Char → Nat
  | 0, _, _ => 0
  | fuel + 1, a, b =>
    let m := findLongestMatch a b
    if m.2.2 = 0 then 0
    else
      matchingTotal fuel (a.take m.1) (b.take m.2.1) + m.2.2 +
        matchingTotal fuel (a.drop (m.1 + m.2.2)) (b.drop (m.2.1 + m.2.2))

/-- `SequenceMatcher.ratio`: `2·M / T`, and `1` when `T = 0`. -/
def seqRatio (a b : List Char) : ℚ :=
  if a.length + b.length = 0 then 1
  else 2 * (matchingTotal (a.length + b.length) a b : ℚ) / ((a.length + b.length : Nat) : ℚ)

/-! ## Skill matching -/

/-- `SkillMatch` dataclass. -/
structure SkillMatch where
  user_skill : String
  job_skill : String
  match_score : ℚ
  match_type : String
deriving Repr, DecidableEq

/-- `SkillMatcher.fuzzy_threshold`. -/
def fuzzy_threshold : ℚ := 0.8

/-- One iteration of the loop body of `match_single_skill`: exact match
(score 1.0), else synonym match (score 0.95), else fuzzy match when the
similarity ratio reaches the threshold, else nothing. -/
def matchOne (user_skill job_skill : String) : Option SkillMatch :=
  if normalize_skill user_skill = normalize_skill job_skill then
    some ⟨user_skill, job_skill, 1, "exact"⟩
  else if (find_synonym_matches user_skill).contains (normalize_skill job_skill) then
    some ⟨user_skill, job_skill, 0.95, "synonym"⟩
  else if fuzzy_threshold ≤ seqRatio (normalize_skill user_skill).toList
      (normalize_skill job_skill).toList then
    some ⟨user_skill, job_skill,
      seqRatio (normalize_skill user_skill).toList (normalize_skill job_skill).toList,
      "fuzzy"⟩
  else none

/-- `SkillMatcher.match_single_skill`: one user skill against every job
skill in order, at most one match per job skill. -/
def match_single_skill (user_skill : String) (job_skills : List String) : List SkillMatch :=
  job_skills.filterMap (matchOne user_skill)

/-- All matches found by the outer loop of `analyze_skill_compatibility`. -/
def allMatches (user_skills job_skills : List String) : List SkillMatch :=
  user_skills.flatMap (fun u => match_single_skill u job_skills)

/-- The dict key used for deduplication: the normalized pair. -/
def mkey (m : SkillMatch) : String × String :=
  (normalize_skill m.user_skill, normalize_skill m.job_skill)

/-- Python `unique_matches[key] = match` semantics: first occurrence fixes
the position; a later match replaces the stored one only when its score is
strictly greater. -/
def updMatch : List SkillMatch → SkillMatch → List SkillMatch
  | [], m => [m]
  | x :: xs, m =>
    if mkey x = mkey m then
      (if m.match_score > x.match_score then m :: xs else x :: xs)
    else
      x :: updMatch xs m

/-- The deduplication loop of `analyze_skill_compatibility`: keep, per
normalized pair, the highest-scoring match (first-come on ties). -/
def dedupMatches (l : List SkillMatch) : List SkillMatch := l.foldl updMatch []

/-- Python `set.add`: append if not already present (only membership and
cardinality of these sets are consulted). -/
def addUnique (l : List String) (s : String) : List String :=
  if l.contains s then l else l ++ [s]

/-- `SkillAnalysis` dataclass. -/
structure SkillAnalysis where
  matched_skills : List SkillMatch
  missing_skills : List String
  additional_skills : List String
  overall_match_score : ℚ
  coverage_percentage : ℚ
  total_job_skills : Nat
  total_user_skills : Nat
deriving Repr, DecidableEq

/-- Normalized job skills matched by at least one recorded match. -/
def matchedJobSkills (user_skills job_skills : List String) : List String :=
  (allMatches user_skills job_skills).foldl
    (fun acc m => addUnique acc (normalize_skill m.job_skill)) []

/-- Normalized user skills participating in at least one recorded match. -/
def matchedUserSkills (user_skills job_skills : List String) : List String :=
  (allMatches user_skills job_skills).foldl
    (fun acc m => addUnique acc (normalize_skill m.user_skill)) []

/-- `SkillMatcher.analyze_skill_compatibility`. -/
def analyze_skill_compatibility (user_skills job_skills : List String) : SkillAnalysis :=
  let final_matches := dedupMatches (allMatches user_skills job_skills)
  let matchedJob := matchedJobSkills user_skills job_skills
  let matchedUser := matchedUserSkills user_skills job_skills
  let missing := job_skills.filter (fun s => !(matchedJob.contains (normalize_skill s)))
  let additional := user_skills.filter (fun s => !(matchedUser.contains (normalize_skill s)))
  let overall : ℚ :=
    if job_skills = [] then 1
    else min ((final_matches.map (fun m => m.match_score)).sum / (job_skills.length : ℚ)) 1
  let coverage : ℚ :=
    if job_skills = [] then 100
    else (matchedJob.length : ℚ) / (job_skills.length : ℚ) * 100
  ⟨final_matches, missing, additional, overall, coverage, job_skills.length, user_skills.length⟩

/-- The learning-path table of `get_skill_improvement_suggestions`. -/
def skill_learning_paths (s : String) : Option (List String) :=
  if s = "python" then some ["Complete Python course", "Practice on HackerRank", "Build Python projects"]
  else if s = "javascript" then some ["Learn ES6+ features", "Practice DOM manipulation", "Build web applications"]
  else if s = "react" then some ["Complete React tutorial", "Build a portfolio website", "Learn React hooks"]
  else if s = "sql" then some ["Practice on SQLBolt", "Learn database design", "Work with real datasets"]
  else if s = "machine learning" then some ["Take ML course", "Practice on Kaggle", "Implement ML algorithms"]
  else if s = "aws" then some ["Get AWS certification", "Practice with free tier", "Build cloud projects"]
  else if s = "docker" then some ["Learn containerization basics", "Practice with Docker Hub", "Deploy applications"]
  else if s = "git" then some ["Learn Git commands", "Practice with GitHub", "Contribute to open source"]
  else none

/-- `SkillMatcher.get_skill_improvement_suggestions`: per missing skill, the
curated list when the normalized name is in the table, otherwise a generic
three-item template (result is a dict keyed by the raw skill name). -/
def get_skill_improvement_suggestions (missing_skills : List String) :
    List (String × List String) :=
  missing_skills.foldl (fun d skill =>
    let n := normalize_skill skill
    let v := match skill_learning_paths n with
      | some tips => tips
      | none => ["Take an online course in " ++ skill,
                 "Practice " ++ skill ++ " through projects",
                 "Read documentation and tutorials about " ++ skill]
    dictSet d skill v) []

/-! ## Recommendation engine (`recommendation_engine.py`) -/

/-- `JobScore` dataclass. -/
structure JobScore where
  skill_score : ℚ
  role_relevance_score : ℚ
  experience_match_score : ℚ
  growth_score : ℚ
  location_score : ℚ
  salary_score : ℚ
  overall_score : ℚ
deriving Repr, DecidableEq

/-- `JobRecommendation` dataclass. -/
structure JobRecommendation where
  job : JobPosting
  score : JobScore
  skill_analysis : SkillAnalysis
  explanation : String
  pros : List String
  cons : List String
  skill_gaps : List String
  learning_suggestions : List (String × List String)
deriving Repr, DecidableEq

/-- The scoring weights of `JobRecommendationEngine.__init__`. -/
def weight_skill_match : ℚ := 0.35
def weight_role_relevance : ℚ := 0.25
def weight_experience_match : ℚ := 0.15
def weight_growth_potential : ℚ := 0.15
def weight_location_match : ℚ := 0.05
def weight_salary_match : ℚ := 0.05

/-- The weighted overall score computed in `recommend_jobs`. -/
def overallScore (skill role exp growth loc sal : ℚ) : ℚ :=
  skill * weight_skill_match + role * weight_role_relevance +
    exp * weight_experience_match + growth * weight_growth_potential +
    loc * weight_location_match + sal * weight_salary_match

/-- `growth_keywords[GrowthFactor.HIGH]`. -/
def growth_high : List String :=
  ["ai", "artificial intelligence", "machine learning", "ml", "deep learning",
   "cloud", "aws", "azure", "gcp", "kubernetes", "docker",
   "cybersecurity", "security", "blockchain", "cryptocurrency",
   "data science", "big data", "analytics", "python", "react"]

/-- `growth_keywords[GrowthFactor.MEDIUM]`. -/
def growth_medium : List String :=
  ["software", "developer", "engineer", "programming", "web development",
   "mobile", "ios", "android", "devops", "automation",
   "database", "sql", "api", "microservices"]

/-- `growth_keywords[GrowthFactor.DECLINING]`. -/
def growth_declining : List String :=
  ["flash", "silverlight", "vb6", "cobol", "fortran",
   "internet explorer", "jquery", "legacy"]

/-- `experience_mapping` from `JobRecommendationEngine.__init__`. -/
def experience_mapping (s : String) : List String :=
  if s = "entry" then ["entry", "junior", "associate", "intern", "graduate"]
  else if s = "mid" then ["mid", "intermediate", "experienced", "developer", "analyst"]
  else if s = "senior" then ["senior", "lead", "principal", "architect", "manager"]
  else if s = "executive" then ["director", "vp", "chief", "head", "executive"]
  else []

/-- The `level_hierarchy` list in `calculate_experience_match_score`. -/
def level_hierarchy : List String := ["entry", "mid", "senior", "executive"]

/-- `JobRecommendationEngine.calculate_skill_score`: percentage match plus a
coverage bonus, capped at 100; also returns the analysis. -/
def calculate_skill_score (p : UserProfile) (j : JobPosting) : ℚ × SkillAnalysis :=
  let a := analyze_skill_compatibility p.skills j.skills_required
  let skill_score := a.overall_match_score * 100
  let coverage_bonus := a.coverage_percentage / 100 * 10
  (min (skill_score + coverage_bonus) 100, a)

/-- `JobRecommendationEngine.calculate_role_relevance_score`: per preferred
role, 100 for a substring match of the lowered role in the lowered title,
otherwise distinct-word overlap ratio times 80; normalized by the number of
preferred roles (0 when there are none). -/
def calculate_role_relevance_score (p : UserProfile) (j : JobPosting) : ℚ :=
  let title := pyLower j.title
  let step := fun (acc : ℚ × ℚ) (role : String) =>
    let rl := pyLower role
    let mx := acc.2 + 100
    if pySubstr rl title then (acc.1 + 100, mx)
    else
      let role_words := (pySplitWs rl).dedup
      let title_words := (pySplitWs title).dedup
      let overlap := (role_words.filter (fun w => title_words.contains w)).length
      if overlap > 0 then (acc.1 + (overlap : ℚ) / (role_words.length : ℚ) * 80, mx)
      else (acc.1, mx)
  let r := p.preferred_roles.foldl step (0, 0)
  if r.2 > 0 then r.1 / r.2 * 100 else 0

/-- `JobRecommendationEngine.calculate_experience_match_score`. -/
def calculate_experience_match_score (p : UserProfile) (j : JobPosting) : ℚ :=
  if optStrFalsy j.experience_level then 75
  else
    let user_level := pyLower p.experience_level
    let job_level := pyLower (j.experience_level.getD "")
    if user_level = job_level then 100
    else if (experience_mapping user_level).any (fun kw => pySubstr kw job_level) then 90
    else
      match level_hierarchy.indexOf? user_level, level_hierarchy.indexOf? job_level with
      | some ui, some ji =>
        let d := max ui ji - min ui ji
        if d = 0 then 100
        else if d = 1 then (if ui > ji then 85 else 70)
        else if d = 2 then 40
        else 20
      | _, _ => 50

/-- `JobRecommendationEngine.calculate_growth_score`: first keyword tier hit
in priority order high, medium, declining; 60 when none match. -/
def calculate_growth_score (j : JobPosting) : ℚ :=
  let text := pyLower (j.title ++ " " ++ j.description)
  if growth_high.any (fun k => pySubstr k text) then 95
  else if growth_medium.any (fun k => pySubstr k text) then 75
  else if growth_declining.any (fun k => pySubstr k text) then 30
  else 60

/-- `JobRecommendationEngine.calculate_location_score`. -/
def calculate_location_score (p : UserProfile) (j : JobPosting) : ℚ :=
  if optStrFalsy p.location || j.location == "" then 75
  else
    let user_location := pyLower (p.location.getD "")
    let job_location := pyLower j.location
    if pySubstr "remote" job_location then 100
    else if pySubstr user_location job_location || pySubstr job_location user_location then 100
    else
      let user_parts := splitOnChar ',' user_location
      let job_parts := splitOnChar ',' job_location
      if pyStrip (user_parts.headD "") = pyStrip (job_parts.headD "") then 90
      else if user_parts.length > 1 ∧ job_parts.length > 1 ∧
          pyStrip (user_parts.getLastD "") = pyStrip (job_parts.getLastD "") then 60
      else 30

/-! ## Salary parsing

`calculate_salary_score` extracts numbers with
`re.findall(r'\$?(\d{1,3}(?:,\d{3})*(?:\.\d{2})?)', text)`.  The scanner
below reproduces the leftmost, non-overlapping, greedy matching of that
pattern: an optional dollar sign, one to three digits (greedily), then comma
groups of exactly three digits, then an optional two-digit decimal part; the
capture excludes the dollar sign. -/

/-- Take up to `n` leading digits. -/
def takeDigits : Nat → List Char → List Char × List Char
  | 0, l => ([], l)
  | _ + 1, [] => ([], [])
  | n + 1, c :: cs =>
    if c.isDigit then
      let r := takeDigits n cs
      (c :: r.1, r.2)
    else ([], c :: cs)

/-- Greedily consume groups `,ddd` (a comma followed by exactly three digits). -/
def commaGroups : List Char → List Char × List Char
  | ',' :: a :: b :: c :: rest =>
    if a.isDigit && b.isDigit && c.isDigit then
      let r := commaGroups rest
      (',' :: a :: b :: c :: r.1, r.2)
    else ([], ',' :: a :: b :: c :: rest)
  | l => ([], l)

/-- Optionally consume `.dd` (a dot followed by exactly two digits). -/
def decimalPart : List Char → List Char × List Char
  | '.' :: a :: b :: rest =>
    if a.isDigit && b.isDigit then (['.', a, b], rest) else ([], '.' :: a :: b :: rest)
  | l => ([], l)

/-- Try to match the salary pattern at the current position, returning the
captured text and the remainder after the whole match. -/
def matchNumAt (l : List Char) : Option (List Char × List Char) :=
  let core := fun (l' : List Char) =>
    let d := takeDigits 3 l'
    if d.1 = [] then none
    else
      let g := commaGroups d.2
      let f := decimalPart g.2
      some (d.1 ++ g.1 ++ f.1, f.2)
  match l with
  | '$' :: rest => core rest
  | _ => core l

/-- `re.findall` over the text: scan left to right, emitting each capture and
resuming after the match (`fuel` bounds the scan; every match consumes at
least one character, so the text length is always enough fuel). -/
def findAllNums : Nat → List Char → List (List Char)
  | 0, _ => []
  | _ + 1, [] => []
  | fuel + 1, l@(_ :: cs) =>
    match matchNumAt l with
    | some (cap, rest) => cap :: findAllNums fuel rest
    | none => findAllNums fuel cs

/-- The captured salary strings of a job's salary text. -/
def salaryCaptures (text : String) : List (List Char) :=
  findAllNums text.toList.length text.toList

/-- Python `int(capture.replace(',', ''))`: succeeds only when, after
removing commas, every character is a digit (a captured decimal part makes
`int` raise `ValueError`, which the source catches). -/
def parseCapture (cap : List Char) : Option Int :=
  let s := cap.filter (fun c => c ≠ ',')
  if s ≠ [] && s.all Char.isDigit then
    some ((s.foldl (fun acc c => acc * 10 + (c.toNat - '0'.toNat)) 0 : Nat) : Int)
  else none

/-- `JobRecommendationEngine.calculate_salary_score`.  Returns `Except`
because the Python code divides `overlap_size / user_range_size` without
guarding against `user_range_size == 0`: a profile whose salary range has
`min == max` makes an overlapping job raise an uncaught `ZeroDivisionError`
(the `except` clause only catches `ValueError` and `IndexError`). -/
def calculate_salary_score (p : UserProfile) (j : JobPosting) : Except String ℚ :=
  match p.salary_range, j.salary_range with
  | some (user_min, user_max), some stext =>
    if stext = "" then Except.ok 75
    else
      match salaryCaptures stext with
      | c1 :: c2 :: _ =>
        match parseCapture c1, parseCapture c2 with
        | some job_min, some job_max =>
          if job_max ≥ user_min ∧ job_min ≤ user_max then
            let overlap_size := min job_max user_max - max job_min user_min
            let user_range_size := user_max - user_min
            if user_range_size = 0 then
              Except.error "ZeroDivisionError: division by zero"
            else
              Except.ok (min (80 + (overlap_size : ℚ) / (user_range_size : ℚ) * 20) 100)
          else if job_max < user_min then Except.ok 20
          else Except.ok 40
        | _, _ => Except.ok 75
      | _ => Except.ok 75
  | _, _ => Except.ok 75

/-! ## Explanation, pros and cons -/

/-- Round half to even, as Python `format(x, '.0f')` does. -/
def roundHalfEven (q : ℚ) : Int :=
  let f := ⌊q⌋
  let r := q - (f : ℚ)
  if r < 1/2 then f
  else if 1/2 < r then f + 1
  else if f % 2 = 0 then f else f + 1

/-- Python `f"{x:.0f}"`. -/
def fmtF0 (q : ℚ) : String := toString (roundHalfEven q)

/-- `JobRecommendationEngine._get_match_quality`. -/
def get_match_quality (score : ℚ) : String :=
  if score ≥ 85 then "excellent"
  else if score ≥ 75 then "very good"
  else if score ≥ 65 then "good"
  else if score ≥ 50 then "fair"
  else "developing"

/-- `JobRecommendationEngine.generate_job_explanation`: fixed fragments gated
by score thresholds, joined with single spaces. -/
def generate_job_explanation (job : JobPosting) (score : JobScore)
    (analysis : SkillAnalysis) : String :=
  let opening :=
    "This " ++ job.title ++ " position at " ++ job.company ++ " is a " ++
      get_match_quality score.overall_score ++ " match for your profile."
  let skillPart :=
    if score.skill_score ≥ 80 then
      "Your skills align excellently with the requirements, covering " ++
        fmtF0 analysis.coverage_percentage ++ "% of the needed skills."
    else if score.skill_score ≥ 60 then
      "You have solid skill overlap with " ++ fmtF0 analysis.coverage_percentage ++
        "% coverage of requirements, with some growth opportunities."
    else
      "While there are skill gaps to address, this role offers significant " ++
        "learning opportunities in " ++
        joinSep ", " (analysis.missing_skills.take 3) ++ "."
  let roleParts :=
    if score.role_relevance_score ≥ 80 then ["The role closely matches your career preferences."]
    else if score.role_relevance_score ≥ 60 then ["This role aligns well with your career direction."]
    else []
  let growthParts :=
    if score.growth_score ≥ 80 then
      ["The position is in a high-growth area with excellent future prospects."]
    else if score.growth_score ≥ 60 then ["The role offers good career growth opportunities."]
    else []
  joinSep " " ([opening, skillPart] ++ roleParts ++ growthParts)

/-- `JobRecommendationEngine.generate_pros_and_cons`: independent threshold
rules, each appending to the pros or cons list in source order. -/
def generate_pros_and_cons (job : JobPosting) (score : JobScore)
    (analysis : SkillAnalysis) : List String × List String :=
  let pros₁ :=
    if score.skill_score ≥ 80 then
      ["Strong skill match (" ++ fmtF0 analysis.coverage_percentage ++ "% coverage)"]
    else []
  let cons₁ := if score.skill_score < 50 then ["Significant skill gaps to address"] else []
  let pros₂ :=
    if analysis.additional_skills.length > 2 then
      ["You bring additional valuable skills beyond requirements"]
    else []
  let pros₃ := if score.experience_match_score ≥ 85 then ["Perfect experience level match"] else []
  let cons₂ := if score.experience_match_score < 50 then ["Experience level mismatch"] else []
  let pros₄ := if score.growth_score ≥ 80 then ["High-growth industry/technology"] else []
  let cons₃ := if score.growth_score < 40 then ["Limited growth potential in this area"] else []
  let pros₅ := if score.location_score ≥ 90 then ["Excellent location match"] else []
  let cons₄ := if score.location_score < 40 then ["Location may not be ideal"] else []
  let pros₆ := if job.work_type = some "remote" then ["Remote work opportunity"] else []
  let pros₇ :=
    if !(optStrFalsy job.salary_range) then
      (if score.salary_score ≥ 80 then ["Competitive salary range"] else [])
    else []
  let cons₅ :=
    if !(optStrFalsy job.salary_range) then
      (if score.salary_score < 40 then ["Salary may not meet expectations"] else [])
    else []
  (pros₁ ++ pros₂ ++ pros₃ ++ pros₄ ++ pros₅ ++ pros₆ ++ pros₇,
   cons₁ ++ cons₂ ++ cons₃ ++ cons₄ ++ cons₅)

/-! ## `recommend_jobs` -/

/-- The pure part of one iteration of the `recommend_jobs` loop, given the
already-computed salary score. -/
def buildRec (p : UserProfile) (j : JobPosting) (salary_score : ℚ) : JobRecommendation :=
  let sa := calculate_skill_score p j
  let role_score := calculate_role_relevance_score p j
  let experience_score := calculate_experience_match_score p j
  let growth_score := calculate_growth_score j
  let location_score := calculate_location_score p j
  let overall := overallScore sa.1 role_score experience_score growth_score
    location_score salary_score
  let job_score : JobScore :=
    ⟨sa.1, role_score, experience_score, growth_score, location_score, salary_score, overall⟩
  let suggestions := get_skill_improvement_suggestions sa.2.missing_skills
  let explanation := generate_job_explanation j job_score sa.2
  let pc := generate_pros_and_cons j job_score sa.2
  ⟨j, job_score, sa.2, explanation, pc.1, pc.2, sa.2.missing_skills, suggestions⟩

/-- One iteration of the `recommend_jobs` loop: everything is pure except the
salary score, whose `ZeroDivisionError` propagates out of the function. -/
def recommendOne (p : UserProfile) (j : JobPosting) : Except String JobRecommendation :=
  match calculate_salary_score p j with
  | Except.error e => Except.error e
  | Except.ok sal => Except.ok (buildRec p j sal)

/-- Sequence the loop over all jobs, stopping at the first raised error. -/
def mapExcept (f : α → Except ε β) : List α → Except ε (List β)
  | [] => Except.ok []
  | a :: l =>
    match f a with
    | Except.error e => Except.error e
    | Except.ok b =>
      match mapExcept f l with
      | Except.error e => Except.error e
      | Except.ok bs => Except.ok (b :: bs)

/-- Python list slice `l[:k]` for an arbitrary integer `k`: a nonnegative
`k` takes the first `k` items; a negative `k` drops the last `|k|` items. -/
def pySliceTo (k : Int) (l : List α) : List α :=
  if 0 ≤ k then l.take k.toNat else l.take ((l.length : Int) + k).toNat

/-- The descending comparison used by
`recommendations.sort(key=lambda x: x.score.overall_score, reverse=True)`. -/
def recGe (a b : JobRecommendation) : Prop :=
  b.score.overall_score ≤ a.score.overall_score

instance : DecidableRel recGe := fun a b =>
  inferInstanceAs (Decidable (b.score.overall_score ≤ a.score.overall_score))

instance : IsTotal JobRecommendation recGe :=
  ⟨fun a b => (le_total b.score.overall_score a.score.overall_score)⟩

instance : IsTrans JobRecommendation recGe :=
  ⟨fun _ _ _ h₁ h₂ => le_trans h₂ h₁⟩

/-- `JobRecommendationEngine.recommend_jobs`: score every job, sort stably by
overall score descending (Python `list.sort` is stable, and `reverse=True`
preserves the input order of equal keys; `List.insertionSort` with `recGe`
computes the same list), then slice to `top_k` (default 5). -/
def recommend_jobs (p : UserProfile) (jobs : List JobPosting)
    (top_k : Int := 5) : Except String (List JobRecommendation) :=
  match mapExcept (recommendOne p) jobs with
  | Except.error e => Except.error e
  | Except.ok recs => Except.ok (pySliceTo top_k (List.insertionSort recGe recs))

/-! ## Concrete fixtures used by counterexamples and witnesses -/

/-- A minimal valid profile with no location and no salary range. -/
def profileNoLoc : UserProfile := ⟨["python"], "entry", [], none, none, none⟩

/-- The sample profile of `create_sample_profile` (fields read by the engine). -/
def profileSample : UserProfile :=
  ⟨["python", "machine learning", "sql", "data analysis", "pandas", "scikit-learn"],
   "mid", ["data scientist", "machine learning engineer", "data analyst"],
   some "San Francisco, CA", some (80000, 120000), some "hybrid"⟩

/-- A valid profile (entry level, `min ≤ max`) whose salary range is a single
point, `min = max = 100000`. -/
def profilePointSalary : UserProfile := ⟨[], "entry", [], none, some (100000, 100000), none⟩

/-- A featureless job posting. -/
def jobPlain : JobPosting := ⟨"a", "b", "c", "d", [], none, none, none, none⟩

/-- A job posting advertising the salary text of the spec scenario. -/
def jobSalaried : JobPosting :=
  ⟨"a", "b", "c", "d", [], none, some "$90,000 - $130,000", none, none⟩

/-- A job posting whose salary range overlaps `[100000, 100000]`. -/
def jobOverlapping : JobPosting :=
  ⟨"a", "b", "c", "d", [], none, some "$90,000 - $110,000", none, none⟩

/-- A job posting located "Remote". -/
def jobRemote : JobPosting := ⟨"a", "b", "Remote", "d", [], none, none, none, none⟩

/-- Profiles whose salary range, when present, is non-degenerate (`min < max`).
The Python code divides by `max - min`, so this is exactly the class of
profiles for which `calculate_salary_score` cannot raise. -/
def saneSalaryB (p : UserProfile) : Bool :=
  match p.salary_range with
  | none => true
  | some r => decide (r.1 < r.2)

/-- `l₁` is a leading segment of `l₂`. -/
def listLeads (l₁ l₂ : List α) : Prop := ∃ t, l₁ ++ t = l₂

/-- The recommendations whose overall score equals `s`. -/
def psOverall (s : ℚ) : JobRecommendation → Bool :=
  fun x => decide (x.score.overall_score = s)

/-- All stored matches have pairwise distinct normalized keys. -/
def keysDistinct (l : List SkillMatch) : Prop :=
  l.Pairwise (fun m m' => mkey m ≠ mkey m')

/-! ## C3: profile construction validation -/

/-- C3 counterexample: the claim says a salary range with `min > max` raises a
validation error, but `UserProfile.__post_init__` never inspects
`salary_range`: construction with `min = 100000 > 50000 = max` succeeds. -/
theorem C3_counterexample :
    exceptOk (mkUserProfile ["python"] "entry" [] none (some (100000, 50000)) none) = true := by
  rfl

/-- C3 (amended): `UserProfile` construction fails with a validation error
exactly when the lowercased experience-level string is not one of
entry/mid/senior/executive; a salary range with `min > max` is accepted, and
the constructor raises for no other reason. -/
theorem C3_construction_iff (skills : List String) (experience_level : String)
    (preferred_roles : List String) (location : Option String)
    (salary_range : Option (Int × Int)) (work_type : Option String) :
    exceptOk (mkUserProfile skills experience_level preferred_roles location salary_range
        work_type) = true ↔
      pyLower experience_level ∈ valid_experience_levels := by
  unfold mkUserProfile
  split <;> rename_i h <;> simp_all [exceptOk]

/-! ## C5: remote jobs and the location score -/

/-- C5 counterexample: for a profile whose location is unset, a job located
"Remote" scores 75, not 100 — the unset-location check precedes the remote
check in `calculate_location_score`. -/
theorem C5_counterexample :
    calculate_location_score profileNoLoc jobRemote = 75 ∧ (75 : ℚ) ≠ 100 :=
  ⟨rfl, by norm_num⟩

/-- C5 (amended): when the profile location is set and non-empty, a job whose
location contains "remote" (case-insensitively) scores 100, whatever the
profile's location is; with the profile location unset the neutral 75 wins. -/
theorem C5_remote_scores_100 (p : UserProfile) (j : JobPosting) (s : String)
    (hloc : p.location = some s) (hs : s ≠ "")
    (hrem : pySubstr "remote" (pyLower j.location) = true) :
    calculate_location_score p j = 100 := by
  have h1 : optStrFalsy p.location = false := by
    rw [hloc]; simpa [optStrFalsy] using hs
  have h2 : (j.location == "") = false := by
    rcases hloc2 : j.location == "" with _ | _
    · rfl
    · exfalso
      have hempty : j.location = "" := by simpa using hloc2
      rw [hempty] at hrem
      exact absurd hrem (by decide)
  unfold calculate_location_score
  rw [h1, h2]
  simp [hrem]

/-! ## C9: the weighted overall score -/

/-- C9: the six weights sum to 1; the overall score stored on every
recommendation is the weighted sum of its six sub-scores; and for any six
sub-scores in [0,100] the weighted sum lies in [0,100]. -/
theorem C9_overall_weighted_sum :
    (weight_skill_match + weight_role_relevance + weight_experience_match +
        weight_growth_potential + weight_location_match + weight_salary_match = 1)
    ∧ (∀ p j rec, recommendOne p j = Except.ok rec →
        rec.score.overall_score = overallScore rec.score.skill_score
          rec.score.role_relevance_score rec.score.experience_match_score
          rec.score.growth_score rec.score.location_score rec.score.salary_score)
    ∧ (∀ s r e g l sa : ℚ,
        0 ≤ s ∧ s ≤ 100 → 0 ≤ r ∧ r ≤ 100 → 0 ≤ e ∧ e ≤ 100 →
        0 ≤ g ∧ g ≤ 100 → 0 ≤ l ∧ l ≤ 100 → 0 ≤ sa ∧ sa ≤ 100 →
        0 ≤ overallScore s r e g l sa ∧ overallScore s r e g l sa ≤ 100) := by
  refine ⟨by norm_num [weight_skill_match, weight_role_relevance, weight_experience_match,
    weight_growth_potential, weight_location_match, weight_salary_match], ?_, ?_⟩
  · intro p j rec h
    unfold recommendOne at h
    rcases hs : calculate_salary_score p j with e | sal <;> rw [hs] at h
    · exact absurd h (by simp)
    · have : rec = buildRec p j sal := by
        injection h with h'
        exact h'.symm
      subst this
      rfl
  · intro s r e g l sa hs hr he hg hl hsa
    unfold overallScore weight_skill_match weight_role_relevance weight_experience_match
      weight_growth_potential weight_location_match weight_salary_match
    constructor
    · nlinarith [hs.1, hr.1, he.1, hg.1, hl.1, hsa.1]
    · nlinarith [hs.2, hr.2, he.2, hg.2, hl.2, hsa.2]

/-- C9 witness: the bound and the stored-score equation at concrete inputs. -/
theorem C9_witness :
    (0 ≤ overallScore 50 60 70 80 90 100 ∧ overallScore 50 60 70 80 90 100 ≤ 100)
    ∧ (recommendOne profileNoLoc jobPlain = Except.ok (buildRec profileNoLoc jobPlain 75) →
        (buildRec profileNoLoc jobPlain 75).score.overall_score =
          overallScore (buildRec profileNoLoc jobPlain 75).score.skill_score
            (buildRec profileNoLoc jobPlain 75).score.role_relevance_score
            (buildRec profileNoLoc jobPlain 75).score.experience_match_score
            (buildRec profileNoLoc jobPlain 75).score.growth_score
            (buildRec profileNoLoc jobPlain 75).score.location_score
            (buildRec profileNoLoc jobPlain 75).score.salary_score) :=
  ⟨C9_overall_weighted_sum.2.2 50 60 70 80 90 100 (by norm_num) (by norm_num)
      (by norm_num) (by norm_num) (by norm_num) (by norm_num),
   C9_overall_weighted_sum.2.1 profileNoLoc jobPlain (buildRec profileNoLoc jobPlain 75)⟩

/-! ## C6: empty skill sets -/

theorem match_single_skill_nil (u : String) : match_single_skill u [] = [] := rfl

theorem allMatches_nil_right (us : List String) : allMatches us [] = [] := by
  induction us with
  | nil => rfl
  | cons u rest ih =>
    show match_single_skill u [] ++ allMatches rest [] = []
    rw [match_single_skill_nil, List.nil_append, ih]

/-- C6: against an empty job-required-skill list every user skill list yields
overall match score 1.0 and coverage 100.0; and for a non-empty job skill
list an empty user skill list yields coverage 0. -/
theorem C6_empty_skill_analysis (U S : List String) (hS : S ≠ []) :
    ((analyze_skill_compatibility U []).overall_match_score = 1
      ∧ (analyze_skill_compatibility U []).coverage_percentage = 100)
    ∧ (analyze_skill_compatibility [] S).coverage_percentage = 0 := by
  refine ⟨⟨?_, ?_⟩, ?_⟩
  · simp [analyze_skill_compatibility]
  · simp [analyze_skill_compatibility]
  · have hall : allMatches [] S = [] := rfl
    simp [analyze_skill_compatibility, matchedJobSkills, hall, hS]

/-- C6 witness: concrete instances of both halves. -/
theorem C6_witness :
    (((analyze_skill_compatibility ["python", "sql"] []).overall_match_score = 1
      ∧ (analyze_skill_compatibility ["python", "sql"] []).coverage_percentage = 100)
    ∧ (analyze_skill_compatibility [] ["aws"]).coverage_percentage = 0) :=
  C6_empty_skill_analysis ["python", "sql"] ["aws"] (by decide)

/-! ## Salary-score case analysis (shared by C1, C2, C8, C10) -/

/-- For a profile whose salary range is non-degenerate the salary score never
raises: every branch of `calculate_salary_score` returns a value. -/
theorem calculate_salary_score_ok (p : UserProfile) (j : JobPosting)
    (hp : saneSalaryB p = true) : ∃ q, calculate_salary_score p j = Except.ok q := by
  unfold calculate_salary_score
  rcases hr : p.salary_range with _ | ⟨umin, umax⟩
  · exact ⟨75, rfl⟩
  · have hlt : umin < umax := by
      unfold saneSalaryB at hp
      rw [hr] at hp
      simpa using hp
    rcases j.salary_range with _ | stext
    · exact ⟨75, rfl⟩
    · simp only
      split
      · exact ⟨75, rfl⟩
      · generalize salaryCaptures stext = caps
        rcases caps with _ | ⟨c1, _ | ⟨c2, rest⟩⟩
        · exact ⟨75, rfl⟩
        · exact ⟨75, rfl⟩
        · simp only
          generalize parseCapture c1 = o1
          generalize parseCapture c2 = o2
          rcases o1 with _ | jmin <;> rcases o2 with _ | jmax
          · exact ⟨75, rfl⟩
          · exact ⟨75, rfl⟩
          · exact ⟨75, rfl⟩
          · simp only
            split
            · have hz : ¬ (umax - umin = 0) := by omega
              rw [if_neg hz]
              exact ⟨_, rfl⟩
            · split
              · exact ⟨20, rfl⟩
              · exact ⟨40, rfl⟩

/-- With a non-degenerate salary range, one loop iteration of
`recommend_jobs` always succeeds. -/
theorem recommendOne_ok (p : UserProfile) (j : JobPosting)
    (hp : saneSalaryB p = true) : ∃ r, recommendOne p j = Except.ok r := by
  obtain ⟨q, hq⟩ := calculate_salary_score_ok p j hp
  exact ⟨buildRec p j q, by simp [recommendOne, hq]⟩

/-! ## C2: sub-score error handling -/

/-- C2 counterexample: `profilePointSalary` satisfies the claimed construction
invariant (valid experience level, salary `min = 100000 ≤ 100000 = max`), yet
`calculate_salary_score` raises an uncaught `ZeroDivisionError` on a job whose
parsed salary range overlaps the degenerate user range: the overlap branch
divides by `user_range_size = max - min = 0`, and the `except` clause catches
only `ValueError` and `IndexError`. -/
theorem C2_counterexample :
    calculate_salary_score profilePointSalary jobOverlapping =
      Except.error "ZeroDivisionError: division by zero" := by
  rfl

/-- C2 (amended): for every profile whose salary range is strictly
non-degenerate (`min < max`) no sub-score raises, and every unparseable or
missing optional field resolves to the neutral score 75: an absent salary
range on either side gives 75, a salary text with fewer than two parseable
numbers gives 75, an absent job experience level gives 75, and an absent
location on either side gives 75.  (The remaining sub-scores — skill, role
relevance and growth — are total functions by construction.) -/
theorem C2_neutral_defaults (p : UserProfile) (j : JobPosting)
    (hp : saneSalaryB p = true) :
    (∃ q, calculate_salary_score p j = Except.ok q)
    ∧ (p.salary_range = none ∨ j.salary_range = none →
        calculate_salary_score p j = Except.ok 75)
    ∧ (∀ stext, j.salary_range = some stext → stext ≠ "" →
        (salaryCaptures stext).length < 2 → calculate_salary_score p j = Except.ok 75)
    ∧ (optStrFalsy j.experience_level = true → calculate_experience_match_score p j = 75)
    ∧ (optStrFalsy p.location = true ∨ j.location = "" →
        calculate_location_score p j = 75) := by
  refine ⟨calculate_salary_score_ok p j hp, ?_, ?_, ?_, ?_⟩
  · rintro (h | h)
    · unfold calculate_salary_score
      rw [h]
    · unfold calculate_salary_score
      rw [h]
      rcases hr : p.salary_range with _ | ⟨a, b⟩ <;> rfl
  · intro stext hj hne hlen
    unfold calculate_salary_score
    rw [hj]
    rcases hr : p.salary_range with _ | ⟨umin, umax⟩
    · rfl
    · rcases hc : salaryCaptures stext with _ | ⟨c1, _ | ⟨c2, rest⟩⟩
      · simp only [hc, if_neg hne]
      · simp only [hc, if_neg hne]
      · rw [hc] at hlen
        simp only [List.length_cons] at hlen
        omega
  · intro h
    unfold calculate_experience_match_score
    rw [h]
    rfl
  · intro h
    unfold calculate_location_score
    have : (optStrFalsy p.location || j.location == "") = true := by
      rcases h with h | h
      · simp [h]
      · simp [h]
    rw [this]
    rfl

/-- C2 witness: the amended statement applied to a sane profile and a job
with no optional fields at all. -/
theorem C2_witness :
    ((∃ q, calculate_salary_score profileNoLoc jobPlain = Except.ok q)
    ∧ (profileNoLoc.salary_range = none ∨ jobPlain.salary_range = none →
        calculate_salary_score profileNoLoc jobPlain = Except.ok 75)
    ∧ (∀ stext, jobPlain.salary_range = some stext → stext ≠ "" →
        (salaryCaptures stext).length < 2 →
        calculate_salary_score profileNoLoc jobPlain = Except.ok 75)
    ∧ (optStrFalsy jobPlain.experience_level = true →
        calculate_experience_match_score profileNoLoc jobPlain = 75)
    ∧ (optStrFalsy profileNoLoc.location = true ∨ jobPlain.location = "" →
        calculate_location_score profileNoLoc jobPlain = 75)) :=
  C2_neutral_defaults profileNoLoc jobPlain (by rfl)

/-! ## C8: the salary interval-overlap formula -/

/-- C8 counterexample: with both salary ranges present and two parsed numbers
(90000 and 110000), a degenerate user range `min = max = 100000` satisfies the
overlap condition, and the code raises `ZeroDivisionError` instead of
producing the claimed score `80 + 20·(overlap ÷ user_range)`: no score at all
is returned for this input. -/
theorem C8_counterexample :
    calculate_salary_score profilePointSalary jobOverlapping =
      Except.error "ZeroDivisionError: division by zero"
    ∧ ∀ q : ℚ, calculate_salary_score profilePointSalary jobOverlapping ≠ Except.ok q := by
  refine ⟨rfl, ?_⟩
  intro q h
  rw [show calculate_salary_score profilePointSalary jobOverlapping =
    Except.error "ZeroDivisionError: division by zero" from rfl] at h
  exact absurd h (by simp)

/-- The general interval-overlap formula of `calculate_salary_score` under a
non-degenerate user range and a successfully parsed job range. -/
theorem salary_formula_general (p : UserProfile) (j : JobPosting)
    (umin umax : Int) (stext : String) (c1 c2 : List Char)
    (rest : List (List Char)) (jmin jmax : Int)
    (hp : p.salary_range = some (umin, umax)) (hlt : umin < umax)
    (hj : j.salary_range = some stext) (hne : stext ≠ "")
    (hc : salaryCaptures stext = c1 :: c2 :: rest)
    (h1 : parseCapture c1 = some jmin) (h2 : parseCapture c2 = some jmax) :
    calculate_salary_score p j = Except.ok (
      if jmax ≥ umin ∧ jmin ≤ umax then
        min (80 + ((min jmax umax - max jmin umin : Int) : ℚ) /
          ((umax - umin : Int) : ℚ) * 20) 100
      else if jmax < umin then 20 else 40) := by
  unfold calculate_salary_score
  rw [hp, hj]
  simp only [hc, h1, h2, if_neg hne]
  by_cases hov : jmax ≥ umin ∧ jmin ≤ umax
  · simp only [if_pos hov]
    have hz : ¬ (umax - umin = 0) := by omega
    rw [if_neg hz]
  · simp only [if_neg hov]
    split <;> rfl

/-- C8 (amended): when both salary ranges are present, the user's range is
non-degenerate (`min < max` — with `min = max` the overlapping case raises
instead of scoring), and two numbers parse from the job's salary text, the
salary score is `min (80 + 20·(overlap ÷ user_range)) 100` when the intervals
overlap, 20 when the job range lies entirely below the user range, and 40
when entirely above; in particular the spec scenario (job text
"$90,000 - $130,000" against profile range 80000–120000) yields 95. -/
theorem C8_salary_formula :
    (∀ (p : UserProfile) (j : JobPosting) (umin umax : Int) (stext : String)
      (c1 c2 : List Char) (rest : List (List Char)) (jmin jmax : Int),
      p.salary_range = some (umin, umax) → umin < umax →
      j.salary_range = some stext → stext ≠ "" →
      salaryCaptures stext = c1 :: c2 :: rest →
      parseCapture c1 = some jmin → parseCapture c2 = some jmax →
      calculate_salary_score p j = Except.ok (
        if jmax ≥ umin ∧ jmin ≤ umax then
          min (80 + ((min jmax umax - max jmin umin : Int) : ℚ) /
            ((umax - umin : Int) : ℚ) * 20) 100
        else if jmax < umin then 20 else 40))
    ∧ calculate_salary_score profileSample jobSalaried = Except.ok 95 := by
  refine ⟨salary_formula_general, ?_⟩
  have h := salary_formula_general profileSample jobSalaried 80000 120000
    "$90,000 - $130,000" "90,000".toList "130,000".toList [] 90000 130000
    rfl (by norm_num) rfl (by simp) rfl rfl rfl
  rw [h]
  norm_num [min_def, max_def]

/-- C8 witness: the amended formula applied at the spec scenario. -/
theorem C8_witness :
    calculate_salary_score profileSample jobSalaried = Except.ok (
      if (130000 : Int) ≥ 80000 ∧ (90000 : Int) ≤ 120000 then
        min (80 + ((min (130000 : Int) 120000 - max (90000 : Int) 80000 : Int) : ℚ) /
          (((120000 : Int) - (80000 : Int) : Int) : ℚ) * 20) 100
      else if (130000 : Int) < 80000 then 20 else 40) :=
  C8_salary_formula.1 profileSample jobSalaried 80000 120000
    "$90,000 - $130,000" "90,000".toList "130,000".toList [] 90000 130000
    rfl (by norm_num) rfl (by simp) rfl rfl rfl

/-! ## C1 and C10: ranking length and slicing -/

/-- Sequencing a list of loop iterations that all succeed succeeds, with one
output per input. -/
theorem mapExcept_ok_of_all {f : α → Except ε β} :
    ∀ l : List α, (∀ a, a ∈ l → ∃ b, f a = Except.ok b) →
      ∃ bs, mapExcept f l = Except.ok bs ∧ bs.length = l.length := by
  intro l
  induction l with
  | nil => exact fun _ => ⟨[], rfl, rfl⟩
  | cons a rest ih =>
    intro h
    obtain ⟨b, hb⟩ := h a (List.mem_cons_self a rest)
    obtain ⟨bs, hbs, hlen⟩ := ih (fun x hx => h x (List.mem_cons_of_mem a hx))
    refine ⟨b :: bs, ?_, by simp [hlen]⟩
    simp [mapExcept, hb, hbs]

/-- C1 counterexample: with `top_k` left unset, six featureless jobs produce
five recommendations, not all six — the Python default is `top_k = 5`, so an
unset `top_k` does not mean "return all candidates". -/
theorem C1_counterexample :
    (recommend_jobs profileNoLoc
        [jobPlain, jobPlain, jobPlain, jobPlain, jobPlain, jobPlain]).toOption.map
      List.length = some 5
    ∧ [jobPlain, jobPlain, jobPlain, jobPlain, jobPlain, jobPlain].length = 6 := by
  refine ⟨?_, rfl⟩
  have hm : mapExcept (recommendOne profileNoLoc)
      [jobPlain, jobPlain, jobPlain, jobPlain, jobPlain, jobPlain] =
      Except.ok (List.replicate 6 (buildRec profileNoLoc jobPlain 75)) := rfl
  have hsorted : List.Sorted recGe (List.replicate 6 (buildRec profileNoLoc jobPlain 75)) :=
    List.pairwise_replicate.mpr (Or.inr (le_refl _))
  have key : recommend_jobs profileNoLoc
      [jobPlain, jobPlain, jobPlain, jobPlain, jobPlain, jobPlain] =
      Except.ok ((List.replicate 6 (buildRec profileNoLoc jobPlain 75)).take 5) := by
    unfold recommend_jobs
    rw [hm]
    simp only [List.Sorted.insertionSort_eq hsorted]
    rfl
  rw [key]
  rfl

/-- C1 (amended): for every profile whose salary range (if set) is
non-degenerate (`min < max`; a degenerate range can raise, see C2) and every
non-negative `top_k`, `recommend_jobs` succeeds and returns exactly
`min top_k (len jobs)` recommendations — so a `top_k` that is at least the
candidate count returns all candidates, and zero jobs give the empty list;
an unset `top_k` defaults to 5 rather than to "all candidates". -/
theorem C1_result_length (p : UserProfile) (jobs : List JobPosting) (k : Int)
    (hp : saneSalaryB p = true) (hk : 0 ≤ k) :
    ∃ l, recommend_jobs p jobs k = Except.ok l ∧ l.length = min k.toNat jobs.length := by
  obtain ⟨recs, hrecs, hlen⟩ :=
    mapExcept_ok_of_all (f := recommendOne p) jobs (fun j _ => recommendOne_ok p j hp)
  refine ⟨pySliceTo k (List.insertionSort recGe recs), ?_, ?_⟩
  · unfold recommend_jobs
    rw [hrecs]
  · unfold pySliceTo
    rw [if_pos hk, List.length_take, List.length_insertionSort, hlen]

/-- C1 witness: a sane profile, one job, `top_k = 2` gives one recommendation. -/
theorem C1_witness :
    ∃ l, recommend_jobs profileNoLoc [jobPlain] 2 = Except.ok l
      ∧ l.length = min (2 : Int).toNat [jobPlain].length :=
  C1_result_length profileNoLoc [jobPlain] 2 rfl (by norm_num)

/-- C10 counterexample: the implicit claim that `recommend_jobs` never raises
for negative `top_k` fails for a (valid) profile with a degenerate salary
range: the salary sub-score raises before slicing is ever reached. -/
theorem C10_counterexample :
    recommend_jobs profilePointSalary [jobOverlapping] (-1) =
      Except.error "ZeroDivisionError: division by zero" := by
  rfl

/-- C10 (amended): for profiles whose salary range (if set) is
non-degenerate, a negative `top_k` does not raise and does not return the top
candidates: the slice `recommendations[:top_k]` keeps only the first
`len(jobs) + top_k` ranked items (clamped at zero), dropping the last
`|top_k|` of them. -/
theorem C10_negative_topk (p : UserProfile) (jobs : List JobPosting) (k : Int)
    (hp : saneSalaryB p = true) (hk : k < 0) (_hjobs : jobs ≠ []) :
    ∃ recs l, mapExcept (recommendOne p) jobs = Except.ok recs
      ∧ recommend_jobs p jobs k = Except.ok l
      ∧ l = (List.insertionSort recGe recs).take ((jobs.length : Int) + k).toNat
      ∧ l.length = ((jobs.length : Int) + k).toNat := by
  obtain ⟨recs, hrecs, hlen⟩ :=
    mapExcept_ok_of_all (f := recommendOne p) jobs (fun j _ => recommendOne_ok p j hp)
  refine ⟨recs, pySliceTo k (List.insertionSort recGe recs), hrecs, ?_, ?_, ?_⟩
  · unfold recommend_jobs
    rw [hrecs]
  · unfold pySliceTo
    rw [if_neg (by omega), List.length_insertionSort, hlen]
  · unfold pySliceTo
    rw [if_neg (by omega), List.length_insertionSort, hlen, List.length_take,
      List.length_insertionSort, hlen]
    omega

/-- C10 witness: three jobs, `top_k = -1`, two survive. -/
theorem C10_witness :
    ∃ recs l,
      mapExcept (recommendOne profileNoLoc) [jobPlain, jobPlain, jobPlain] = Except.ok recs
      ∧ recommend_jobs profileNoLoc [jobPlain, jobPlain, jobPlain] (-1) = Except.ok l
      ∧ l = (List.insertionSort recGe recs).take
          ((([jobPlain, jobPlain, jobPlain].length : Int) + (-1)).toNat)
      ∧ l.length = (([jobPlain, jobPlain, jobPlain].length : Int) + (-1)).toNat :=
  C10_negative_topk profileNoLoc [jobPlain, jobPlain, jobPlain] (-1) rfl
    (by norm_num) (by simp)

/-- C5 witness: the sample profile (location set) against the remote job. -/
theorem C5_witness : calculate_location_score profileSample jobRemote = 100 :=
  C5_remote_scores_100 profileSample jobRemote "San Francisco, CA" rfl (by decide) rfl

/-! ## C4: ranking is sorted and stable -/

theorem pySliceTo_eq_take (k : Int) (l : List α) :
    pySliceTo k l = l.take (if 0 ≤ k then k.toNat else ((l.length : Int) + k).toNat) := by
  unfold pySliceTo
  split <;> simp_all

/-- Inserting `a` into `l` does not disturb the relative order of any score
class: every element skipped by `orderedInsert` has a strictly greater
overall score than `a`, so no equal-score element is jumped over. -/
theorem filter_orderedInsert_overall (s : ℚ) (a : JobRecommendation) :
    ∀ l : List JobRecommendation,
      (List.orderedInsert recGe a l).filter (psOverall s) =
        (a :: l).filter (psOverall s) := by
  intro l
  induction l with
  | nil => rfl
  | cons b l ih =>
    rw [List.orderedInsert]
    by_cases h : recGe a b
    · rw [if_pos h]
    · rw [if_neg h]
      have hlt : a.score.overall_score < b.score.overall_score := by
        unfold recGe at h
        exact lt_of_not_le h
      by_cases hb : b.score.overall_score = s <;> by_cases ha : a.score.overall_score = s
      · exact absurd (ha.trans hb.symm) (ne_of_lt hlt)
      · simp [List.filter_cons, psOverall, ha, hb, ih]
      · simp [List.filter_cons, psOverall, ha, hb, ih]
      · simp [List.filter_cons, psOverall, ha, hb, ih]

/-- The stable sort leaves each overall-score class in input order. -/
theorem filter_insertionSort_overall (s : ℚ) :
    ∀ l : List JobRecommendation,
      (List.insertionSort recGe l).filter (psOverall s) = l.filter (psOverall s) := by
  intro l
  induction l with
  | nil => rfl
  | cons a l ih =>
    rw [List.insertionSort, filter_orderedInsert_overall]
    by_cases ha : a.score.overall_score = s <;> simp [List.filter_cons, psOverall, ha, ih]

theorem filter_take_leads (p : α → Bool) (n : Nat) (l : List α) :
    listLeads ((l.take n).filter p) (l.filter p) :=
  ⟨(l.drop n).filter p, by rw [← List.filter_append, List.take_append_drop]⟩

/-- C4: whenever `recommend_jobs` returns, its output is sorted
non-increasingly by overall score, and the sort is stable: restricted to any
single overall score `s`, the output is a leading segment of the per-job
recommendation list taken in input order. -/
theorem C4_sorted_stable (p : UserProfile) (jobs : List JobPosting) (k : Int)
    (recs l : List JobRecommendation) (s : ℚ)
    (hm : mapExcept (recommendOne p) jobs = Except.ok recs)
    (hl : recommend_jobs p jobs k = Except.ok l) :
    List.Sorted recGe l
    ∧ listLeads (l.filter (psOverall s)) (recs.filter (psOverall s)) := by
  unfold recommend_jobs at hl
  rw [hm] at hl
  simp only [Except.ok.injEq] at hl
  subst hl
  rw [pySliceTo_eq_take]
  constructor
  · exact (List.sorted_insertionSort recGe recs).sublist
      (List.take_sublist _ _)
  · obtain ⟨t, ht⟩ := filter_take_leads (psOverall s)
      (if 0 ≤ k then k.toNat else (((List.insertionSort recGe recs).length : Int) + k).toNat)
      (List.insertionSort recGe recs)
    exact ⟨t, by rw [ht, filter_insertionSort_overall]⟩

/-- C4 witness: a singleton job list at score class 0. -/
theorem C4_witness :
    List.Sorted recGe [buildRec profileNoLoc jobPlain 75]
    ∧ listLeads ([buildRec profileNoLoc jobPlain 75].filter (psOverall 0))
        ([buildRec profileNoLoc jobPlain 75].filter (psOverall 0)) :=
  C4_sorted_stable profileNoLoc [jobPlain] 5 [buildRec profileNoLoc jobPlain 75]
    [buildRec profileNoLoc jobPlain 75] 0 rfl rfl

/-! ## C7: match recording and deduplication -/

theorem mem_updMatch : ∀ (d : List SkillMatch) (m y : SkillMatch),
    y ∈ updMatch d m → y ∈ d ∨ y = m := by
  intro d m
  induction d with
  | nil =>
    intro y h
    simp only [updMatch, List.mem_singleton] at h
    exact Or.inr h
  | cons x xs ih =>
    intro y h
    by_cases hk : mkey x = mkey m
    · by_cases hs : m.match_score > x.match_score
      · simp only [updMatch, if_pos hk, if_pos hs, List.mem_cons] at h
        rcases h with h | h
        · exact Or.inr h
        · exact Or.inl (List.mem_cons_of_mem x h)
      · simp only [updMatch, if_pos hk, if_neg hs] at h
        exact Or.inl h
    · simp only [updMatch, if_neg hk, List.mem_cons] at h
      rcases h with h | h
      · exact Or.inl (h ▸ List.mem_cons_self x xs)
      · rcases ih y h with h' | h'
        · exact Or.inl (List.mem_cons_of_mem x h')
        · exact Or.inr h'

theorem updMatch_keys : ∀ (d : List SkillMatch) (m : SkillMatch),
    keysDistinct d → keysDistinct (updMatch d m) := by
  intro d m
  induction d with
  | nil =>
    intro _
    simp [updMatch, keysDistinct]
  | cons x xs ih =>
    intro h
    rw [keysDistinct, List.pairwise_cons] at h
    obtain ⟨hx, hxs⟩ := h
    by_cases hk : mkey x = mkey m
    · by_cases hs : m.match_score > x.match_score
      · simp only [updMatch, if_pos hk, if_pos hs]
        rw [keysDistinct, List.pairwise_cons]
        exact ⟨fun y hy => hk ▸ hx y hy, hxs⟩
      · simp only [updMatch, if_pos hk, if_neg hs]
        rw [keysDistinct, List.pairwise_cons]
        exact ⟨hx, hxs⟩
    · simp only [updMatch, if_neg hk]
      rw [keysDistinct, List.pairwise_cons]
      refine ⟨fun y hy => ?_, ih hxs⟩
      rcases mem_updMatch xs m y hy with h' | h'
      · exact hx y h'
      · exact h' ▸ hk

theorem updMatch_dom_old : ∀ (d : List SkillMatch) (m y : SkillMatch), y ∈ d →
    ∃ z, z ∈ updMatch d m ∧ mkey z = mkey y ∧ y.match_score ≤ z.match_score := by
  intro d m
  induction d with
  | nil =>
    intro y h
    cases h
  | cons x xs ih =>
    intro y hy
    by_cases hk : mkey x = mkey m
    · by_cases hs : m.match_score > x.match_score
      · rcases List.mem_cons.mp hy with h | h
        · refine ⟨m, ?_, ?_, ?_⟩
          · simp [updMatch, if_pos hk, if_pos hs]
          · rw [h, ← hk]
          · rw [h]
            exact le_of_lt hs
        · exact ⟨y, by simp [updMatch, if_pos hk, if_pos hs, h], rfl, le_refl _⟩
      · refine ⟨y, ?_, rfl, le_refl _⟩
        simpa [updMatch, if_pos hk, if_neg hs] using hy
    · rcases List.mem_cons.mp hy with h | h
      · exact ⟨x, by simp [updMatch, if_neg hk], by rw [h], by rw [h]⟩
      · obtain ⟨z, hz, hzk, hzs⟩ := ih y h
        exact ⟨z, by simp [updMatch, if_neg hk, hz], hzk, hzs⟩

theorem updMatch_dom_new : ∀ (d : List SkillMatch) (m : SkillMatch),
    ∃ z, z ∈ updMatch d m ∧ mkey z = mkey m ∧ m.match_score ≤ z.match_score := by
  intro d m
  induction d with
  | nil => exact ⟨m, by simp [updMatch], rfl, le_refl _⟩
  | cons x xs ih =>
    by_cases hk : mkey x = mkey m
    · by_cases hs : m.match_score > x.match_score
      · exact ⟨m, by simp [updMatch, if_pos hk, if_pos hs], rfl, le_refl _⟩
      · exact ⟨x, by simp [updMatch, if_pos hk, if_neg hs], hk, le_of_not_lt hs⟩
    · obtain ⟨z, hz, hzk, hzs⟩ := ih
      exact ⟨z, by simp [updMatch, if_neg hk, hz], hzk, hzs⟩

theorem foldl_upd_mem : ∀ (l : List SkillMatch) (d : List SkillMatch) (y : SkillMatch),
    y ∈ l.foldl updMatch d → y ∈ d ∨ y ∈ l := by
  intro l
  induction l with
  | nil =>
    intro d y h
    exact Or.inl h
  | cons a l ih =>
    intro d y h
    rcases ih (updMatch d a) y h with h' | h'
    · rcases mem_updMatch d a y h' with h'' | h''
      · exact Or.inl h''
      · exact Or.inr (h'' ▸ List.mem_cons_self a l)
    · exact Or.inr (List.mem_cons_of_mem a h')

theorem foldl_upd_keys : ∀ (l : List SkillMatch) (d : List SkillMatch),
    keysDistinct d → keysDistinct (l.foldl updMatch d) := by
  intro l
  induction l with
  | nil => exact fun d h => h
  | cons a l ih => exact fun d h => ih (updMatch d a) (updMatch_keys d a h)

theorem foldl_upd_dom : ∀ (l : List SkillMatch) (d : List SkillMatch) (y : SkillMatch),
    (∃ z, z ∈ d ∧ mkey z = mkey y ∧ y.match_score ≤ z.match_score) →
    ∃ z, z ∈ l.foldl updMatch d ∧ mkey z = mkey y ∧ y.match_score ≤ z.match_score := by
  intro l
  induction l with
  | nil => exact fun d y h => h
  | cons a l ih =>
    intro d y ⟨z, hz, hzk, hzs⟩
    obtain ⟨z', hz', hzk', hzs'⟩ := updMatch_dom_old d a z hz
    exact ih (updMatch d a) y ⟨z', hz', hzk'.trans hzk, le_trans hzs hzs'⟩

theorem foldl_upd_dom_mem : ∀ (l : List SkillMatch) (d : List SkillMatch) (x : SkillMatch),
    x ∈ l →
    ∃ z, z ∈ l.foldl updMatch d ∧ mkey z = mkey x ∧ x.match_score ≤ z.match_score := by
  intro l
  induction l with
  | nil =>
    intro d x h
    cases h
  | cons a l ih =>
    intro d x hx
    rcases List.mem_cons.mp hx with h | h
    · subst h
      exact foldl_upd_dom l (updMatch d x) x (updMatch_dom_new d x)
    · exact ih (updMatch d a) x h

theorem dedup_mem (l : List SkillMatch) (m : SkillMatch) (h : m ∈ dedupMatches l) :
    m ∈ l := by
  rcases foldl_upd_mem l [] m h with h' | h'
  · cases h'
  · exact h'

theorem dedup_keys (l : List SkillMatch) : keysDistinct (dedupMatches l) :=
  foldl_upd_keys l [] (List.Pairwise.nil)

theorem dedup_dom (l : List SkillMatch) (x : SkillMatch) (h : x ∈ l) :
    ∃ z, z ∈ dedupMatches l ∧ mkey z = mkey x ∧ x.match_score ≤ z.match_score :=
  foldl_upd_dom_mem l [] x h

theorem keysDistinct_eq : ∀ l : List SkillMatch, keysDistinct l →
    ∀ a, a ∈ l → ∀ b, b ∈ l → mkey a = mkey b → a = b := by
  intro l
  induction l with
  | nil =>
    intro _ a ha
    cases ha
  | cons x xs ih =>
    intro h a ha b hb hk
    rw [keysDistinct, List.pairwise_cons] at h
    obtain ⟨hx, hxs⟩ := h
    rcases List.mem_cons.mp ha with ha' | ha' <;> rcases List.mem_cons.mp hb with hb' | hb'
    · rw [ha', hb']
    · exact absurd (ha' ▸ hk) (hx b hb')
    · exact absurd (hb' ▸ hk.symm) (hx a ha')
    · exact ih hxs a ha' b hb' hk

theorem analyze_matched_eq (us js : List String) :
    (analyze_skill_compatibility us js).matched_skills =
      dedupMatches (allMatches us js) := rfl

theorem matchOne_diag (u j : String) (h : normalize_skill u = normalize_skill j) :
    matchOne u j = some ⟨u, j, 1, "exact"⟩ := by
  unfold matchOne
  rw [if_pos h]

theorem matchOne_fields (u j : String) (m : SkillMatch) (h : matchOne u j = some m) :
    m.user_skill = u ∧ m.job_skill = j := by
  unfold matchOne at h
  split at h
  · injection h with h'
    rw [← h']
    exact ⟨rfl, rfl⟩
  · split at h
    · injection h with h'
      rw [← h']
      exact ⟨rfl, rfl⟩
    · split at h
      · injection h with h'
        rw [← h']
        exact ⟨rfl, rfl⟩
      · cases h

theorem matchOne_diag_eq (u j : String) (m : SkillMatch) (h : matchOne u j = some m)
    (hd : normalize_skill u = normalize_skill j) : m = ⟨u, j, 1, "exact"⟩ := by
  rw [matchOne_diag u j hd] at h
  injection h with h'
  exact h'.symm

set_option maxRecDepth 4096 in
theorem matchOne_fuzzy (u j : String) (m : SkillMatch) (h : matchOne u j = some m)
    (hf : m.match_type = "fuzzy") : fuzzy_threshold ≤ m.match_score := by
  unfold matchOne at h
  split at h
  · injection h with h'
    subst h'
    simp at hf
  · split at h
    · injection h with h'
      subst h'
      simp at hf
    · split at h
      · rename_i hsim
        injection h with h'
        subst h'
        exact hsim
      · cases h

theorem mem_allMatches (us js : List String) (m : SkillMatch) :
    m ∈ allMatches us js ↔ ∃ u, u ∈ us ∧ ∃ j, j ∈ js ∧ matchOne u j = some m := by
  simp [allMatches, match_single_skill, List.mem_flatMap, List.mem_filterMap]

/-- A match found for a diagonal key (equal normalized user and job skill) is
necessarily the exact match with score 1. -/
theorem allMatches_diag (us js : List String) (m : SkillMatch)
    (hm : m ∈ allMatches us js)
    (hd : (mkey m).1 = (mkey m).2) : m.match_score = 1 ∧ m.match_type = "exact" := by
  obtain ⟨u, _, j, _, hone⟩ := (mem_allMatches us js m).mp hm
  obtain ⟨hu, hj⟩ := matchOne_fields u j m hone
  have hd' : normalize_skill u = normalize_skill j := by
    have : mkey m = (normalize_skill u, normalize_skill j) := by
      unfold mkey
      rw [hu, hj]
    rw [this] at hd
    exact hd
  have := matchOne_diag_eq u j m hone hd'
  rw [this]
  exact ⟨rfl, rfl⟩

/-- C7: exact matches are recorded with score 1.0 and type "exact"; the
analysis keeps at most one match per normalized pair, and the kept match is a
recorded one that dominates every recorded match with that key (so a 0.95
synonym match can never displace an exact match for the same pair); a pair
with equal normalized strings always ends up recorded with score 1.0 and
type "exact"; and no fuzzy match below the 0.8 threshold is ever recorded. -/
theorem C7_match_recording (us js : List String) (u j : String) :
    (normalize_skill u = normalize_skill j → matchOne u j = some ⟨u, j, 1, "exact"⟩)
    ∧ List.Pairwise (fun m m' => mkey m ≠ mkey m')
        (analyze_skill_compatibility us js).matched_skills
    ∧ (∀ m, m ∈ (analyze_skill_compatibility us js).matched_skills →
        m ∈ allMatches us js
        ∧ ∀ m', m' ∈ allMatches us js → mkey m' = mkey m →
            m'.match_score ≤ m.match_score)
    ∧ (u ∈ us → j ∈ js → normalize_skill u = normalize_skill j →
        ∃ m, m ∈ (analyze_skill_compatibility us js).matched_skills
          ∧ mkey m = (normalize_skill u, normalize_skill j)
          ∧ m.match_score = 1 ∧ m.match_type = "exact")
    ∧ (∀ m, m ∈ (analyze_skill_compatibility us js).matched_skills →
        m.match_type = "fuzzy" → fuzzy_threshold ≤ m.match_score) := by
  refine ⟨matchOne_diag u j, ?_, ?_, ?_, ?_⟩
  · rw [analyze_matched_eq]
    exact dedup_keys (allMatches us js)
  · intro m hm
    rw [analyze_matched_eq] at hm
    refine ⟨dedup_mem _ m hm, ?_⟩
    intro m' hm' hk
    obtain ⟨z, hz, hzk, hzs⟩ := dedup_dom (allMatches us js) m' hm'
    have hzm : z = m :=
      keysDistinct_eq _ (dedup_keys (allMatches us js)) z hz m hm (hzk.trans hk)
    exact hzm ▸ hzs
  · intro hu hj hd
    have hex : matchOne u j = some ⟨u, j, 1, "exact"⟩ := matchOne_diag u j hd
    have hall : (⟨u, j, 1, "exact"⟩ : SkillMatch) ∈ allMatches us js :=
      (mem_allMatches us js _).mpr ⟨u, hu, j, hj, hex⟩
    obtain ⟨z, hz, hzk, hzs⟩ := dedup_dom (allMatches us js) _ hall
    have hkey : mkey z = (normalize_skill u, normalize_skill j) := by
      rw [hzk]
      rfl
    have hdiag : (mkey z).1 = (mkey z).2 := by
      rw [hkey, hd]
    obtain ⟨hs1, ht1⟩ := allMatches_diag us js z (dedup_mem _ z hz) hdiag
    exact ⟨z, analyze_matched_eq us js ▸ hz, hkey, hs1, ht1⟩
  · intro m hm hf
    rw [analyze_matched_eq] at hm
    obtain ⟨u', _, j', _, hone⟩ :=
      (mem_allMatches us js m).mp (dedup_mem _ m hm)
    exact matchOne_fuzzy u' j' m hone hf

/-- C7 witness: on concrete skill lists, the exact pair ("Python", "python")
is recorded with score 1 and type "exact", with every hypothesis discharged. -/
theorem C7_witness :
    matchOne "Python" "python" = some ⟨"Python", "python", 1, "exact"⟩
    ∧ ∃ m, m ∈ (analyze_skill_compatibility ["Python"] ["python", "aws"]).matched_skills
        ∧ mkey m = (normalize_skill "Python", normalize_skill "python")
        ∧ m.match_score = 1 ∧ m.match_type = "exact" :=
  ⟨(C7_match_recording ["Python"] ["python", "aws"] "Python" "python").1 rfl,
   (C7_match_recording ["Python"] ["python", "aws"] "Python" "python").2.2.2.1
     (by decide) (by decide) rfl⟩
